import Mathlib

/-!
Shallow embedding of the caching and data-access core of the
`webstreamingmovie` repository: the in-memory bounded TTL cache
(`src/infrastructure/cache/memory_cache.py`), the cache manager with
remote-to-local failover (`src/infrastructure/cache/cache_manager.py`),
the movie domain entity and its validation
(`src/domain/entities/movie.py`), pagination value objects
(`src/domain/value_objects/pagination.py`), search criteria
(`src/domain/value_objects/search_criteria.py`), and the two search
filter implementations
(`src/infrastructure/repositories/csv_movie_repository.py` and
`src/infrastructure/repositories/optimized_csv_movie_repository.py`).

Python strings are modelled as Lean `String`s; the string operations the
code uses (`lower`, `strip`, `split`, substring containment) are defined
below on `List Char` so that everything reduces in the kernel.  Python
`float` ratings are modelled as `ℚ` (the code only compares them, and
comparison of floats is exact).  `time.time()` timestamps and expiry
instants are modelled as `Int`: the code only adds integer TTLs to them
and compares them, so any linearly ordered additive group is a faithful
carrier.  Python dicts are modelled as association lists in insertion
order, which is the iteration order Python guarantees.
-/

namespace WSM

/-- ASCII lower-casing of one character, as Python's `str.lower` acts on
the ASCII data appearing in this repository. -/
def lowChar (c : Char) : Char :=
  if 65 ≤ c.toNat ∧ c.toNat ≤ 90 then Char.ofNat (c.toNat + 32) else c

/-- Model of Python `str.lower` on the character list of a string. -/
def lowerL (l : List Char) : List Char := l.map lowChar

/-- Whitespace test used by Python `str.strip` / `str.split` (ASCII part). -/
def isWs (c : Char) : Bool := c = ' ' ∨ c = '\t' ∨ c = '\n' ∨ c = '\r'

/-- Model of Python `str.strip`: drop whitespace at both ends. -/
def trimL (l : List Char) : List Char :=
  ((l.dropWhile isWs).reverse.dropWhile isWs).reverse

/-- Helper for `wordsL`: accumulates the current word (reversed). -/
def wordsAux : List Char → List Char → List (List Char)
  | acc, [] => if acc.isEmpty then [] else [acc.reverse]
  | acc, c :: cs =>
    if isWs c then
      if acc.isEmpty then wordsAux [] cs else acc.reverse :: wordsAux [] cs
    else wordsAux (c :: acc) cs

/-- Model of Python `str.split()` with no argument: split on whitespace
runs, discarding empty pieces. -/
def wordsL (l : List Char) : List (List Char) := wordsAux [] l

/-- Whether `nd` occurs at the start of `hay`. -/
def subAt : List Char → List Char → Bool
  | [], _ => true
  | _ :: _, [] => false
  | a :: as, b :: bs => a = b && subAt as bs

/-- Model of Python's substring operator `nd in hay` on char lists. -/
def containsSeq (nd : List Char) : List Char → Bool
  | [] => nd.isEmpty
  | c :: rest => subAt nd (c :: rest) || containsSeq nd rest

/-- Substring containment on strings (`needle in hay` in Python). -/
def strIncl (nd hay : String) : Bool := containsSeq nd.toList hay.toList

/-- Lower-cased form of a string (Python `s.lower()`). -/
def lowerS (s : String) : String := ⟨lowerL s.toList⟩

/-- Stripped form of a string (Python `s.strip()`). -/
def stripS (s : String) : String := ⟨trimL s.toList⟩

/-- Words of a string (Python `s.split()`), as char lists. -/
def wordsS (s : String) : List (List Char) := wordsL s.toList

/-- Decimal digit test (`\d` of the year regex, ASCII part). -/
def isDigitC (c : Char) : Bool := '0' ≤ c ∧ c ≤ '9'

/-- Numeric value of a digit character. -/
def digitVal (c : Char) : Int := (c.toNat : Int) - 48

/-- Model of `_extract_year_from_title`: the regex
`\((\d{4})\)\s*$` matches a trailing `(YYYY)` optionally followed by
whitespace; returns the year on a match. -/
def extractYear (title : String) : Option Int :=
  match (title.toList.reverse.dropWhile isWs) with
  | ')' :: u :: t :: h :: th :: '(' :: _ =>
    if isDigitC u && isDigitC t && isDigitC h && isDigitC th then
      some (1000 * digitVal th + 100 * digitVal h + 10 * digitVal t + digitVal u)
    else none
  | _ => none

/-- The `Movie` frozen dataclass of `src/domain/entities/movie.py`.
Ratings are `ℚ` (exact model of the float comparisons used), counts are
`Int` (Python ints, validated later). -/
structure Movie where
  movieId : String
  title : String
  genres : List String
  imdb_id : String
  tmdb_id : String
  ratings_count : Int
  zero_to_one_ratings_count : Int
  one_to_two_ratings_count : Int
  two_to_three_ratings_count : Int
  three_to_four_ratings_count : Int
  four_to_five_ratings_count : Int
  average_rating : ℚ
  tags : List String
  earliest_rating : String
  latest_rating : String
  earliest_tag : String
  latest_tag : String
  deriving DecidableEq, Repr

/-- Sum of the five rating bins, as computed in `Movie._validate`. -/
def Movie.binSum (m : Movie) : Int :=
  m.zero_to_one_ratings_count + m.one_to_two_ratings_count +
  m.two_to_three_ratings_count + m.three_to_four_ratings_count +
  m.four_to_five_ratings_count

/-- Model of `Movie._validate`, run by `__post_init__`: the checks in
source order; an `Except.error` models the raised `ValueError`. -/
def Movie.validate (m : Movie) : Except String Unit :=
  if m.movieId = "" ∨ stripS m.movieId = "" then
    Except.error "Movie ID cannot be empty"
  else if m.title = "" ∨ stripS m.title = "" then
    Except.error "Movie title cannot be empty"
  else if ¬ (0 ≤ m.average_rating ∧ m.average_rating ≤ 5) then
    Except.error "Movie rating must be between 0 and 5"
  else if m.ratings_count < 0 then
    Except.error "Ratings count cannot be negative"
  else if m.binSum ≠ m.ratings_count then
    Except.error "Rating breakdown does not match total ratings count"
  else Except.ok ()

/-- Model of `Movie.has_genre`: case-insensitive comparison against each
genre label. -/
def Movie.hasGenreB (m : Movie) (g : String) : Bool :=
  m.genres.any (fun x => lowerS x = lowerS g)

/-- The `SearchCriteria` frozen dataclass of
`src/domain/value_objects/search_criteria.py`. -/
structure SearchCriteria where
  title : Option String
  genre : Option String
  year : Option Int
  min_rating : Option ℚ
  max_rating : Option ℚ
  country : Option String
  language : Option String
  status : Option String
  deriving DecidableEq, Repr

/-- Model of `SearchCriteria.is_empty`: all eight fields are `None`. -/
def SearchCriteria.isEmptyB (c : SearchCriteria) : Bool :=
  c.title.isNone && c.genre.isNone && c.year.isNone && c.min_rating.isNone &&
  c.max_rating.isNone && c.country.isNone && c.language.isNone && c.status.isNone

/-- Model of `SearchCriteria.has_any_filters`. -/
def SearchCriteria.hasAnyFiltersB (c : SearchCriteria) : Bool := !c.isEmptyB

/-- Model of `SearchCriteria.has_title_search`: the title is not `None`
and is truthy after `strip()`. -/
def SearchCriteria.hasTitleSearchB (c : SearchCriteria) : Bool :=
  match c.title with
  | none => false
  | some t => stripS t != ""

/-- Model of `SearchCriteria.has_genre_filter`. -/
def SearchCriteria.hasGenreFilterB (c : SearchCriteria) : Bool :=
  match c.genre with
  | none => false
  | some g => stripS g != ""

/-- Normalization used by `get_normalized_title` and friends:
`s.lower().strip() if s else ""` (both `None` and `""` are falsy). -/
def normOptStr (o : Option String) : String :=
  match o with
  | none => ""
  | some s => if s == "" then "" else stripS (lowerS s)

/-- Model of `SearchCriteria.get_normalized_title`. -/
def SearchCriteria.normTitle (c : SearchCriteria) : String := normOptStr c.title

/-- Model of `SearchCriteria.get_normalized_country`. -/
def SearchCriteria.normCountry (c : SearchCriteria) : String := normOptStr c.country

/-- Model of `SearchCriteria.get_normalized_language`. -/
def SearchCriteria.normLanguage (c : SearchCriteria) : String := normOptStr c.language

/-- The `PaginationParams` frozen dataclass of
`src/domain/value_objects/pagination.py`; pages and limits are Python
ints, validation is stated separately (`paramsValid`). -/
structure PaginationParams where
  page : Int
  limit : Int
  deriving DecidableEq, Repr

/-- The `offset` property: `(page - 1) * limit`. -/
def PaginationParams.offset (p : PaginationParams) : Int := (p.page - 1) * p.limit

/-- The `__post_init__` validation of `PaginationParams`: page ≥ 1 and
1 ≤ limit ≤ 100; construction raises otherwise. -/
def paramsValid (p : PaginationParams) : Prop :=
  1 ≤ p.page ∧ 1 ≤ p.limit ∧ p.limit ≤ 100

/-- The `PaginatedResult` value object (the four stored fields). -/
structure PaginatedResult (α : Type) where
  data : List α
  total : Int
  page : Int
  limit : Int
  deriving DecidableEq, Repr

/-- Python list slicing `l[a:b]` for the non-negative `a ≤ b` used by
`_apply_pagination`. -/
def pySlice (a b : Int) (l : List α) : List α :=
  (l.drop a.toNat).take (b - a).toNat

/-- Model of `_apply_pagination` (identical in both repositories):
slice `[offset, offset+limit)` of the already filtered/sorted list, with
`total` the pre-pagination count. -/
def applyPagination (movies : List Movie) (p : PaginationParams) : PaginatedResult Movie :=
  { data := pySlice p.offset (p.offset + p.limit) movies
    total := (movies.length : Int)
    page := p.page
    limit := p.limit }

/-! ### The naive linear filter (`CsvMovieRepository._filter_movies`)

The Python function rebinds `filtered` once per criterion; each stage
below is one of those conditional list comprehensions, applied in source
order. -/

/-- Title stage: keep movies whose lower-cased title contains the
normalized title as a substring. -/
def stTitle (c : SearchCriteria) (l : List Movie) : List Movie :=
  if c.hasTitleSearchB then l.filter (fun m => strIncl c.normTitle (lowerS m.title)) else l

/-- Genre stage: keep movies for which `has_genre(criteria.genre)`. -/
def stGenre (c : SearchCriteria) (l : List Movie) : List Movie :=
  if c.hasGenreFilterB then l.filter (fun m => m.hasGenreB (c.genre.getD "")) else l

/-- Year stage: guarded by `criteria.year is not None`. -/
def stYear (c : SearchCriteria) (l : List Movie) : List Movie :=
  match c.year with
  | some y => l.filter (fun m => extractYear m.title == some y)
  | none => l

/-- Country stage: guarded by `criteria.country is not None`; matches the
normalized country as substring of any lower-cased tag. -/
def stCountry (c : SearchCriteria) (l : List Movie) : List Movie :=
  match c.country with
  | some _ => l.filter (fun m => m.tags.any (fun t => strIncl c.normCountry (lowerS t)))
  | none => l

/-- Language stage, analogous to the country stage. -/
def stLang (c : SearchCriteria) (l : List Movie) : List Movie :=
  match c.language with
  | some _ => l.filter (fun m => m.tags.any (fun t => strIncl c.normLanguage (lowerS t)))
  | none => l

/-- Minimum rating stage (inclusive). -/
def stMin (c : SearchCriteria) (l : List Movie) : List Movie :=
  match c.min_rating with
  | some r => l.filter (fun m => decide (r ≤ m.average_rating))
  | none => l

/-- Maximum rating stage (inclusive). -/
def stMax (c : SearchCriteria) (l : List Movie) : List Movie :=
  match c.max_rating with
  | some r => l.filter (fun m => decide (m.average_rating ≤ r))
  | none => l

/-- Model of `CsvMovieRepository._filter_movies`: the seven stages in
source order (the status stage is commented out in the source). -/
def naiveFilter (movies : List Movie) (c : SearchCriteria) : List Movie :=
  stMax c (stMin c (stLang c (stCountry c (stYear c (stGenre c (stTitle c movies))))))

/-! ### The index-based filter
(`OptimizedCsvMovieRepository._filter_movies_optimized`)

The search index maps each lower-cased title word (and each exact genre
label) to the list of row positions whose title (genre list) contains
it, in ascending position order — `_build_search_index` appends `i` in a
single ascending pass.  A word is a key of the dict exactly when its
posting list is non-empty.

Python `set`s of row positions are modelled as lists of positions, kept
in ascending order.  This fixes which positions a candidate set holds —
always faithful, since set membership is order-free — but fixes an
iteration order that CPython only partially honours.  The untouched
`set(range(n))` does iterate ascending: every element sits in its home
slot `i % table_size` because the table grows past `5n/3` slots while
the set is built.  After `candidate_indices &= other`, however, CPython
(`set_intersection_update` in `setobject.c`) rebuilds the set into a
fresh table of at least 8 slots and iterates it in home-slot order, so
e.g. the candidate set `{2, 8}` iterates as `8, 2` — not ascending.
Consequently, theorems below assert order-sensitive facts about
`optFilter` only on criteria that never intersect the candidate set (no
title and no genre filter), and assert only order-free facts
(membership, permutation with a filtered list) elsewhere; `tableOrder`
below models the rebuilt-table iteration order where the order itself is
the subject. -/

/-- Whether row `i` of the snapshot satisfies the per-movie test `p`
(rows beyond the snapshot never hit). -/
def hitAt (l : List Movie) (p : Movie → Bool) (i : Nat) : Bool :=
  match l[i]? with
  | some m => p m
  | none => false

/-- Whether row `i` of the snapshot has word `w` among its lower-cased
title words. -/
def wordHit (movies : List Movie) (w : List Char) : Nat → Bool :=
  hitAt movies (fun m => (wordsS (lowerS m.title)).contains w)

/-- Posting list of `title_index[w]` (ascending row positions). -/
def titlePostings (movies : List Movie) (w : List Char) : List Nat :=
  (List.range movies.length).filter (wordHit movies w)

/-- Whether row `i` has the exact genre label `g`. -/
def genreHit (movies : List Movie) (g : String) : Nat → Bool :=
  hitAt movies (fun m => m.genres.contains g)

/-- Posting list of `genre_index[g]` (ascending row positions). -/
def genrePostings (movies : List Movie) (g : String) : List Nat :=
  (List.range movies.length).filter (genreHit movies g)

/-- The title-candidate loop of `_filter_movies_optimized`: for each
word of the query, a word absent from the index is skipped; a present
word replaces an empty accumulated set by its postings and intersects a
non-empty one. -/
def titleFoldCands (movies : List Movie) (ws : List (List Char)) : List Nat :=
  ws.foldl
    (fun acc w =>
      let ps := titlePostings movies w
      if ps.isEmpty then acc
      else if acc.isEmpty then ps
      else acc.filter (fun i => ps.contains i))
    []

/-- The non-indexed predicates applied to each remaining candidate, in
source order: year, then min rating, then max rating (each `continue`s
on failure). -/
def predRest (c : SearchCriteria) (m : Movie) : Bool :=
  (match c.year with
   | some y => extractYear m.title == some y
   | none => true) &&
  (match c.min_rating with
   | some r => decide (r ≤ m.average_rating)
   | none => true) &&
  (match c.max_rating with
   | some r => decide (m.average_rating ≤ r)
   | none => true)

/-- The result loop of `_filter_movies_optimized`: visit the candidate
positions (ascending), look the movie up, apply the remaining
predicates, and append survivors. -/
def selectPred (movies : List Movie) (c : SearchCriteria) (cand : List Nat) : List Movie :=
  cand.filterMap (fun i => (movies[i]?).bind (fun m => if predRest c m then some m else none))

/-- Model of `OptimizedCsvMovieRepository._filter_movies_optimized`,
with candidate sets as ascending position lists.  The candidate
positions and hence the returned set of movies are faithful to the
source for every criteria; the result's order is faithful exactly when
no intersection touches `candidate_indices` (no title and no genre
filter), per the section comment above — after an intersection CPython
iterates the rebuilt table in home-slot order (see `tableOrder`). -/
def optFilter (movies : List Movie) (c : SearchCriteria) : List Movie :=
  if !c.hasAnyFiltersB then movies
  else
    let cand0 := List.range movies.length
    let cand1 :=
      if c.hasTitleSearchB then
        let tc := titleFoldCands movies (wordsS c.normTitle)
        if tc.isEmpty then cand0 else cand0.filter (fun i => tc.contains i)
      else cand0
    if c.hasGenreFilterB && (genrePostings movies (c.genre.getD "")).isEmpty then []
    else
      let cand2 :=
        if c.hasGenreFilterB then
          cand1.filter (fun i => (genrePostings movies (c.genre.getD "")).contains i)
        else cand1
      selectPred movies c cand2

/-- The candidate-position list `optFilter` hands to its result loop in
the no-early-return case (a proof-side restatement of the `let` chain of
`optFilter`; it inherits `optFilter`'s ascending-order modelling and the
same fidelity scope: the positions are always faithful, their order only
when no intersection occurs). -/
def candListOf (movies : List Movie) (c : SearchCriteria) : List Nat :=
  let cand0 := List.range movies.length
  let cand1 :=
    if c.hasTitleSearchB then
      let tc := titleFoldCands movies (wordsS c.normTitle)
      if tc.isEmpty then cand0 else cand0.filter (fun i => tc.contains i)
    else cand0
  if c.hasGenreFilterB then
    cand1.filter (fun i => (genrePostings movies (c.genre.getD "")).contains i)
  else cand1

/-- Iteration order of a CPython set of distinct naturals in a table of
`sz` slots when every element occupies its home slot `x % sz` (true
whenever the home slots are pairwise distinct): ascending home-slot
order.  `set_intersection_update` places `candidate_indices` in exactly
such a fresh table, of 8 slots when the intersection has at most four
elements (the resize threshold is fill ≥ 5 of 8). -/
def tableOrder (sz : Nat) (xs : List Nat) : List Nat :=
  (List.range sz).filterMap (fun slot => xs.find? (fun x => x % sz = slot))

/-- Model of `_filter_movies_optimized` on a genre-only criteria whose
genre posting set has at most four elements with pairwise-distinct home
slots modulo 8: `candidate_indices = set(range(n)) &= genre_candidates`
is rebuilt into a fresh 8-slot table and the result loop visits it in
home-slot order; with no year/rating predicates every visited movie is
appended. -/
def optFilterGenre8 (movies : List Movie) (g : String) : List Movie :=
  (tableOrder 8 (genrePostings movies g)).filterMap (fun i => movies[i]?)

/-! ### Related movies -/

/-- Whether the two movies share at least one genre label
(`set(movie.genres) & set(m.genres)` non-empty; exact string match). -/
def sharesGenreB (m x : Movie) : Bool :=
  m.genres.any (fun g => x.genres.contains g)

/-- Number of distinct shared genre labels
(`len(set(movie.genres) & set(other_movie.genres))`). -/
def commonCount (m x : Movie) : Nat :=
  (m.genres.dedup.filter (fun g => x.genres.contains g)).length

/-- Sort relation of the basic repository's related-movie sort:
`sort(key=average_rating, reverse=True)` places `a` no later than `b`
when `a`'s rating is at least `b`'s. -/
def ratingGE (a b : Movie) : Prop := b.average_rating ≤ a.average_rating

instance : DecidableRel ratingGE :=
  fun a b => inferInstanceAs (Decidable (b.average_rating ≤ a.average_rating))

/-- Sort relation of the optimized repository's related-movie sort:
descending lexicographic on `(common-genre count, average rating)`. -/
def pairGE (a b : Movie × Nat) : Prop :=
  b.2 < a.2 ∨ (a.2 = b.2 ∧ b.1.average_rating ≤ a.1.average_rating)

instance : DecidableRel pairGE :=
  fun a b =>
    inferInstanceAs (Decidable (b.2 < a.2 ∨ (a.2 = b.2 ∧ b.1.average_rating ≤ a.1.average_rating)))

instance : IsTotal Movie ratingGE :=
  ⟨fun a b => le_total b.average_rating a.average_rating⟩

instance : IsTrans Movie ratingGE :=
  ⟨fun _ _ _ hab hbc => le_trans hbc hab⟩

instance : IsTotal (Movie × Nat) pairGE :=
  ⟨fun a b => by
    rcases Nat.lt_trichotomy a.2 b.2 with h | h | h
    · exact Or.inr (Or.inl h)
    · rcases le_total b.1.average_rating a.1.average_rating with hr | hr
      · exact Or.inl (Or.inr ⟨h, hr⟩)
      · exact Or.inr (Or.inr ⟨h.symm, hr⟩)
    · exact Or.inl (Or.inl h)⟩

instance : IsTrans (Movie × Nat) pairGE :=
  ⟨by
    intro a b c hab hbc
    rcases hab with h1 | ⟨h1e, h1r⟩ <;> rcases hbc with h2 | ⟨h2e, h2r⟩
    · exact Or.inl (by omega)
    · exact Or.inl (by omega)
    · exact Or.inl (by omega)
    · exact Or.inr ⟨by omega, h2r.trans h1r⟩⟩

/-- Descending lexicographic (shared-genre count, mean rating) order
between movies, relative to the base movie `m`: the order actually
realized by the optimized repository's related-movie sort. -/
def relKeyGE (m a b : Movie) : Prop :=
  commonCount m b < commonCount m a ∨
    (commonCount m a = commonCount m b ∧ b.average_rating ≤ a.average_rating)

/-- Model of `CsvMovieRepository.find_related_movies`: same-genre movies
other than the given one, stably sorted by rating descending
(Python's stable sort is modelled by `List.insertionSort`, also stable),
capped at `limit`. -/
def relNaive (movies : List Movie) (m : Movie) (limit : Nat) : List Movie :=
  ((movies.filter (fun x => x.movieId != m.movieId && sharesGenreB m x)).insertionSort
      ratingGE).take limit

/-- Model of `OptimizedCsvMovieRepository.find_related_movies`: pairs
each other same-genre movie with its shared-genre count, stably sorts by
`(count, rating)` descending, caps at `limit`, and projects the movie. -/
def relOpt (movies : List Movie) (m : Movie) (limit : Nat) : List Movie :=
  let related :=
    (movies.filter (fun x => x.movieId != m.movieId && sharesGenreB m x)).map
      (fun x => (x, commonCount m x))
  ((related.insertionSort pairGE).take limit).map (fun p => p.1)

/-! ### The in-memory bounded TTL cache
(`src/infrastructure/cache/memory_cache.py`)

The backing dict `_cache : Dict[str, Tuple[Any, float]]` is an
insertion-ordered map, modelled as an association list; `time.time()`
is passed in explicitly as `now : Int`. -/

/-- State of a `MemoryCache` instance. -/
structure MemCache (α : Type) where
  cache : List (String × α × Int)
  max_size : Nat
  default_ttl : Int
  last_cleanup : Int
  cleanup_interval : Int
  deriving DecidableEq, Repr

/-- The `MemoryCache.__init__` constructor: empty dict, the given bounds,
`last_cleanup = time.time()` and a 300 s cleanup interval. -/
def mkCache (α : Type) (max_size : Nat) (default_ttl : Int) (now : Int) : MemCache α :=
  ⟨[], max_size, default_ttl, now, 300⟩

/-- Keys of the backing dict, in insertion order. -/
def dictKeys (l : List (String × α × Int)) : List String := l.map (fun e => e.1)

/-- Python dict assignment `d[k] = (v, ex)`: updates in place (keeping
the key's position) or appends a new key. -/
def dictSet (l : List (String × α × Int)) (k : String) (v : α) (ex : Int) :
    List (String × α × Int) :=
  if (dictKeys l).contains k then
    l.map (fun e => if e.1 = k then (k, v, ex) else e)
  else l ++ [(k, v, ex)]

/-- Python `del d[k]` (for a present key; on an absent key it is the
identity, matching the guarded uses in the source). -/
def dictDel (l : List (String × α × Int)) (k : String) : List (String × α × Int) :=
  l.filter (fun e => e.1 != k)

/-- Model of `_cleanup_expired`: a sweep runs only when at least
`cleanup_interval` has passed since the last one, and removes every
entry with `current_time > expiry`. -/
def cleanupExpired (s : MemCache α) (now : Int) : MemCache α :=
  if now - s.last_cleanup < s.cleanup_interval then s
  else
    { s with
      cache := s.cache.filter (fun e => !(decide (e.2.2 < now)))
      last_cleanup := now }

/-- Model of `MemoryCache.get`: sweep, then return the value if the key
is present and unexpired; an expired entry observed here is eagerly
deleted. -/
def memGet (s : MemCache α) (now : Int) (k : String) : Option α × MemCache α :=
  let s1 := cleanupExpired s now
  match s1.cache.find? (fun e => e.1 == k) with
  | some (_, v, ex) =>
    if now < ex then (some v, s1)
    else (none, { s1 with cache := dictDel s1.cache k })
  | none => (none, s1)

/-- The `ttl = ttl or self._default_ttl` line of `MemoryCache.set`:
both `None` and `0` are falsy in Python, so both fall back to the
default; every other integer (including negatives) is kept. -/
def pyTtl (t? : Option Int) (d : Int) : Int :=
  match t? with
  | none => d
  | some t => if t = 0 then d else t

/-- Sort relation used by the eviction pass: ascending expiry. -/
def expiryLE (a b : String × α × Int) : Prop := a.2.2 ≤ b.2.2

instance : DecidableRel (expiryLE (α := α)) :=
  fun a b => inferInstanceAs (Decidable (a.2.2 ≤ b.2.2))

/-- Python loop `for key in ...: del cache[key]`. -/
def removeKeys (l : List (String × α × Int)) (ks : List String) : List (String × α × Int) :=
  ks.foldl (fun acc k => dictDel acc k) l

/-- The data transformation of `_evict_if_needed`, modelled as if its
`with self._lock:` acquisition succeeded: when the entry count is at or
above `max_size`, stably sort the entries by expiry ascending and delete
the keys of the first `max(1, count // 10)` of them.  In the program the
pass never completes when it is reached from `set`: `set` already holds
`self._lock` — a non-reentrant `threading.Lock` — across the call, so
the nested acquisition blocks forever (see `evictAttemptLocked` and
`memSetL`). -/
def evictIfNeeded (s : MemCache α) : MemCache α :=
  if s.max_size ≤ s.cache.length then
    let sortedL := s.cache.insertionSort expiryLE
    let toRemove := max 1 (sortedL.length / 10)
    { s with cache := removeKeys s.cache ((sortedL.take toRemove).map (fun e => e.1)) }
  else s

/-- The data transformation of `MemoryCache.set`, assuming the eviction
pass completes: store `(value, now + ttl)` under the key (the body
cannot raise, so the `try` always returns `True`), then run the eviction
pass.  This coincides with the program exactly when the eviction branch
is not triggered (entry count stays below `max_size` after the insert) —
the only regime the set/get theorems below use; when the branch
triggers, the program instead deadlocks, which `memSetL` models. -/
def memSet (s : MemCache α) (now : Int) (k : String) (v : α) (t? : Option Int) :
    Bool × MemCache α :=
  let t := pyTtl t? s.default_ttl
  let ex : Int := now + t
  let s1 := { s with cache := dictSet s.cache k v ex }
  (true, evictIfNeeded s1)

/-- Model of `_evict_if_needed` as actually invoked from `set`
(memory_cache.py lines 78–80), with `self._lock` already held by the
caller: if the capacity branch triggers, line 47 executes
`with self._lock:` on the non-reentrant `threading.Lock` and blocks
forever — `none` models the call never returning; otherwise the method
returns without touching the lock. -/
def evictAttemptLocked (s : MemCache α) : Option (MemCache α) :=
  if s.max_size ≤ s.cache.length then none
  else some s

/-- Model of `MemoryCache.set` including the lock discipline of the
source: the insert and the `_evict_if_needed` call both happen under the
`with self._lock:` of `set`, so a triggered eviction deadlocks and `set`
never returns (`none`); otherwise `set` completes and returns `True`.
A deadlock is not an exception, so the `except` clause never fires. -/
def memSetL (s : MemCache α) (now : Int) (k : String) (v : α) (t? : Option Int) :
    Option (Bool × MemCache α) :=
  let t := pyTtl t? s.default_ttl
  let ex : Int := now + t
  let s1 := { s with cache := dictSet s.cache k v ex }
  match evictAttemptLocked s1 with
  | none => none
  | some s2 => some (true, s2)

/-- Run a sequence of `set` operations (call time, key, value, TTL
argument) against a cache state, left to right. -/
def runSets (ops : List (Int × String × α × Option Int)) (s : MemCache α) : MemCache α :=
  ops.foldl (fun st op => (memSet st op.1 op.2.1 op.2.2.1 op.2.2.2).2) s

/-- Model of `MemoryCache.delete`. -/
def memDel (s : MemCache α) (k : String) : Bool × MemCache α :=
  if (dictKeys s.cache).contains k then (true, { s with cache := dictDel s.cache k })
  else (false, s)

/-- Model of `MemoryCache.exists`: sweep, then report presence of an
unexpired entry (no eager delete here, matching the source). -/
def memExists (s : MemCache α) (now : Int) (k : String) : Bool × MemCache α :=
  let s1 := cleanupExpired s now
  match s1.cache.find? (fun e => e.1 == k) with
  | some (_, _, ex) => (decide (now < ex), s1)
  | none => (false, s1)

/-- Model of `MemoryCache.clear_pattern`: delete every key containing
the pattern as a substring and return how many were removed. -/
def memClearPattern (s : MemCache α) (pat : String) : Nat × MemCache α :=
  let hits := s.cache.filter (fun e => strIncl pat e.1)
  (hits.length, { s with cache := s.cache.filter (fun e => !(strIncl pat e.1)) })

/-! ### The cache manager (`src/infrastructure/cache/cache_manager.py`)

The remote Redis client is external input/output: each manager
operation takes the outcome the remote call would have had — a returned
value or a raised exception — as an explicit `RResp` argument.  When the
manager does not consult the remote tier the argument is ignored. -/

/-- Outcome of one remote-cache call: a returned value or an exception. -/
inductive RResp (β : Type) where
  | ok (val : β)
  | exn
  deriving DecidableEq, Repr

/-- State of a `CacheManager`: whether `_redis_cache` is set, the
optional local `MemoryCache`, and the `_use_redis` flag. -/
structure CMState (α : Type) where
  has_redis : Bool
  memory : Option (MemCache α)
  use_redis : Bool
  deriving DecidableEq, Repr

/-- The failover block shared by `get` and `set`:
`self._use_redis = False` and lazy construction of the local cache
(`MemoryCache()` has `max_size=1000`, `default_ttl=3600`). -/
def cmFailover (s : CMState α) (now : Int) : CMState α :=
  { s with
    use_redis := false
    memory := some (s.memory.getD (mkCache α 1000 3600 now)) }

/-- The spec's `REMOTE_ACTIVE` state, as reported by `get_cache_type`:
the manager will consult the remote tier. -/
def remoteActive (s : CMState α) : Prop :=
  s.use_redis = true ∧ s.has_redis = true

/-- The shared tail of `CacheManager.get`: read the local cache if it
exists. -/
def memTailGet (s : CMState α) (now : Int) (k : String) : Option α × CMState α :=
  match s.memory with
  | some mc =>
    let r := memGet mc now k
    (r.1, { s with memory := some r.2 })
  | none => (none, s)

/-- Model of `CacheManager.get`: in the remote tier a returned value
(even `None`) is final; an exception fails over and retries locally. -/
def cmGet (s : CMState α) (now : Int) (k : String) (remote : RResp (Option α)) :
    Option α × CMState α :=
  if s.use_redis && s.has_redis then
    match remote with
    | RResp.ok v => (v, s)
    | RResp.exn => memTailGet (cmFailover s now) now k
  else memTailGet s now k

/-- Model of `CacheManager.set`: a remote exception fails over; when the
write did not succeed and a local cache exists, the local cache is
written. -/
def cmSet (s : CMState α) (now : Int) (k : String) (v : α) (t? : Option Int)
    (remote : RResp Bool) : Bool × CMState α :=
  let step1 : Bool × CMState α :=
    if s.use_redis && s.has_redis then
      match remote with
      | RResp.ok b => (b, s)
      | RResp.exn => (false, cmFailover s now)
    else (false, s)
  let succ := step1.1
  let s1 := step1.2
  if !succ then
    match s1.memory with
    | some mc =>
      let r := memSet mc now k v t?
      (r.1, { s1 with memory := some r.2 })
    | none => (succ, s1)
  else (succ, s1)

/-- Model of `CacheManager.delete`: a remote exception is only logged —
no failover, no local-cache construction; the local tier is then tried
if it already exists, and the results are OR-ed. -/
def cmDelete (s : CMState α) (k : String) (remote : RResp Bool) : Bool × CMState α :=
  let succ0 : Bool :=
    if s.use_redis && s.has_redis then
      match remote with
      | RResp.ok b => b
      | RResp.exn => false
    else false
  match s.memory with
  | some mc =>
    let r := memDel mc k
    (succ0 || r.1, { s with memory := some r.2 })
  | none => (succ0, s)

/-- Model of `CacheManager.exists`: a remote answer is final; a remote
exception is only logged, after which the local tier is consulted if it
already exists. -/
def cmExists (s : CMState α) (now : Int) (k : String) (remote : RResp Bool) :
    Bool × CMState α :=
  if s.use_redis && s.has_redis then
    match remote with
    | RResp.ok b => (b, s)
    | RResp.exn =>
      match s.memory with
      | some mc =>
        let r := memExists mc now k
        (r.1, { s with memory := some r.2 })
      | none => (false, s)
  else
    match s.memory with
    | some mc =>
      let r := memExists mc now k
      (r.1, { s with memory := some r.2 })
    | none => (false, s)

/-- Model of `CacheManager.clear_pattern`: counts from both tiers are
summed; a remote exception is only logged and contributes zero. -/
def cmClearPattern (s : CMState α) (pat : String) (remote : RResp Nat) :
    Nat × CMState α :=
  let c0 : Nat :=
    if s.use_redis && s.has_redis then
      match remote with
      | RResp.ok n => n
      | RResp.exn => 0
    else 0
  match s.memory with
  | some mc =>
    let r := memClearPattern mc pat
    (c0 + r.1, { s with memory := some r.2 })
  | none => (c0, s)

/-- Model of `CacheManager.get_cache_type`. -/
def cacheType (s : CMState α) : String :=
  if s.use_redis && s.has_redis then "redis"
  else if s.memory.isSome then "memory"
  else "none"

/-! ### Concrete fixtures used by witnesses and counterexamples -/

/-- A minimal valid movie: zero ratings in every bin, the given mean. -/
def mv (id title : String) (genres : List String) (rating : ℚ) : Movie :=
  ⟨id, title, genres, "", "", 0, 0, 0, 0, 0, 0, rating, [], "", "", "", ""⟩

/-- A movie violating the bin-sum invariant (bins sum to 0, total 7). -/
def mvBadBins : Movie := { mv "1" "t" [] 3 with ratings_count := 7 }

/-- A movie with an out-of-range mean rating. -/
def mvBadRating : Movie := { mv "1" "t" [] 3 with average_rating := 6 }

/-- The all-`None` search criteria. -/
def cNone : SearchCriteria := ⟨none, none, none, none, none, none, none, none⟩

/-- Fixture movie with title `"ab cd"` and genre `"Action"`. -/
def mvAbCd : Movie := mv "1" "ab cd" ["Action"] 3

/-- Title query whose two words both occur in `mvAbCd`'s title but not
as a substring in that order. -/
def cSwap : SearchCriteria := { cNone with title := some "cd ab" }

/-- Title query whose single word occurs in no title. -/
def cMissing : SearchCriteria := { cNone with title := some "zz" }

/-- Criteria with only a year filter. -/
def cYear : SearchCriteria := { cNone with year := some 2000 }

/-- The movie related-movie queries are issued for. -/
def mvBase : Movie := mv "0" "M (2000)" ["g1", "g2"] 4

/-- Shares both genres with `mvBase`, mean rating 3. -/
def mvTwoShared : Movie := mv "a" "A (2001)" ["g1", "g2"] 3

/-- Shares one genre with `mvBase`, mean rating 5. -/
def mvOneShared : Movie := mv "b" "B (2002)" ["g1"] 5

/-- A manager in the remote-active state with no local cache built. -/
def cmRemote : CMState Nat := ⟨true, none, true⟩

/-- A nine-movie snapshot whose genre `"g8"` occurs exactly at rows 2
and 8 — the intersected candidate set `{2, 8}` occupies home slots 2 and
0 of the fresh 8-slot table, so CPython iterates it as `8, 2`. -/
def movies9 : List Movie :=
  [mv "0" "t0" [] 3, mv "1" "t1" [] 3, mv "2" "t2" ["g8"] 3, mv "3" "t3" [] 3,
   mv "4" "t4" [] 3, mv "5" "t5" [] 3, mv "6" "t6" [] 3, mv "7" "t7" [] 3,
   mv "8" "t8" ["g8"] 3]

/-- Criteria with only the genre filter `"g8"`. -/
def cG8 : SearchCriteria := { cNone with genre := some "g8" }

end WSM

/-! ## Theorems -/

namespace WSM

/-- Claim C5: for every valid `PaginationParams(page, limit)` and every
filtered/sorted movie list, `offset = (page-1)*limit`, the returned page
is exactly the slice `[offset, offset+limit)` of the list clipped to its
length (hence never more than `limit` items), and `total` is the
pre-pagination count of the whole list. -/
theorem C5_pagination (movies : List Movie) (p : PaginationParams)
    (hpage : 1 ≤ p.page) (hlim : 1 ≤ p.limit) (hlim100 : p.limit ≤ 100) :
    p.offset = (p.page - 1) * p.limit
    ∧ (applyPagination movies p).data = (movies.drop p.offset.toNat).take p.limit.toNat
    ∧ ((applyPagination movies p).data.length : Int) ≤ p.limit
    ∧ (applyPagination movies p).total = (movies.length : Int) := by
  have hslice : (applyPagination movies p).data
      = (movies.drop p.offset.toNat).take p.limit.toNat := by
    show pySlice p.offset (p.offset + p.limit) movies = _
    unfold pySlice
    congr 1
    omega
  refine ⟨rfl, hslice, ?_, rfl⟩
  rw [hslice]
  have h1 : ((movies.drop p.offset.toNat).take p.limit.toNat).length ≤ p.limit.toNat := by
    simpa using Nat.min_le_left _ _
  have h2 : (p.limit.toNat : Int) = p.limit := Int.toNat_of_nonneg (by omega)
  omega

/-- Closed instance of `C5_pagination` at `page = 2`, `limit = 3` on a
five-movie list. -/
theorem C5_pagination_witness :
    (PaginationParams.mk 2 3).offset = (2 - 1) * 3
    ∧ (applyPagination [mvAbCd, mvBase, mvTwoShared, mvOneShared, mvBadBins]
        (PaginationParams.mk 2 3)).data
      = (([mvAbCd, mvBase, mvTwoShared, mvOneShared, mvBadBins].drop
          (PaginationParams.mk 2 3).offset.toNat).take (3 : Int).toNat)
    ∧ (((applyPagination [mvAbCd, mvBase, mvTwoShared, mvOneShared, mvBadBins]
        (PaginationParams.mk 2 3)).data.length : Int) ≤ 3)
    ∧ (applyPagination [mvAbCd, mvBase, mvTwoShared, mvOneShared, mvBadBins]
        (PaginationParams.mk 2 3)).total = (5 : Int) := by
  have h := C5_pagination [mvAbCd, mvBase, mvTwoShared, mvOneShared, mvBadBins]
    (PaginationParams.mk 2 3) (by decide) (by decide) (by decide)
  simpa using h

/-- Claim C6: constructing a `Movie` succeeds only if the five rating
bins sum exactly to the supplied total and the mean rating lies in
`[0, 5]`; a movie whose bins sum to a different value, or whose mean
rating is out of range, fails validation with an error. -/
theorem C6_validation (m : Movie) :
    (m.validate = Except.ok () →
      m.binSum = m.ratings_count ∧ 0 ≤ m.average_rating ∧ m.average_rating ≤ 5)
    ∧ (m.binSum ≠ m.ratings_count → ∃ msg, m.validate = Except.error msg)
    ∧ (¬ (0 ≤ m.average_rating ∧ m.average_rating ≤ 5) →
        ∃ msg, m.validate = Except.error msg) := by
  unfold Movie.validate
  refine ⟨?_, ?_, ?_⟩ <;> intro h
  · split_ifs at h with h1 h2 h3 h4 h5 <;> simp_all
  · split_ifs <;> first | exact ⟨_, rfl⟩ | tauto
  · split_ifs <;> first | exact ⟨_, rfl⟩ | tauto

/-- Closed instance of `C6_validation`: the bad-bins fixture is rejected
and the out-of-range-rating fixture is rejected. -/
theorem C6_validation_witness :
    (∃ msg, mvBadBins.validate = Except.error msg)
    ∧ (∃ msg, mvBadRating.validate = Except.error msg) :=
  ⟨(C6_validation mvBadBins).2.1 (by decide),
   (C6_validation mvBadRating).2.2 (by decide)⟩

/-! ### Selection lemmas for the index-based filter

The result loop of the optimized filter visits an ascending list of row
positions and projects the snapshot.  These lemmas relate such index
selections to direct list filtering. -/

/-- Shifting a selection by one position past a cons cell. -/
theorem filterMap_shift (a : Movie) (t : List Movie) (g : Movie → Option Movie)
    (is : List Nat) :
    (is.map Nat.succ).filterMap (fun i => ((a :: t)[i]?).bind g)
      = is.filterMap (fun i => (t[i]?).bind g) := by
  induction is with
  | nil => rfl
  | cons j js ih =>
    have hj : (a :: t)[Nat.succ j]? = t[j]? := by simp
    simp only [List.map_cons, List.filterMap_cons, hj, ih]

/-- Selecting ascending positions filtered out of `range` always yields
a sublist of the snapshot (insertion order is preserved). -/
theorem selRange_filter_sublist (l : List Movie) (q : Nat → Bool) (r : Movie → Bool) :
    List.Sublist
      (((List.range l.length).filter q).filterMap
        (fun i => (l[i]?).bind (fun m => if r m then some m else none)))
      l := by
  induction l generalizing q with
  | nil => simp
  | cons a t ih =>
    rw [List.length_cons, List.range_succ_eq_map, List.filter_cons, List.filter_map]
    by_cases hq : q 0
    · rw [if_pos hq, List.filterMap_cons, filterMap_shift]
      have h0 : ((a :: t)[0]?).bind (fun m => if r m then some m else none)
          = if r a then some a else none := by simp
      rw [h0]
      cases hr : r a
      · rw [if_neg (by simp [hr])]
        exact List.Sublist.cons a (ih _)
      · rw [if_pos (by simp [hr])]
        exact List.Sublist.cons₂ a (ih _)
    · rw [if_neg hq, filterMap_shift]
      exact List.Sublist.cons a (ih _)

/-- Selecting every position of the snapshot and applying a residual
predicate is exactly filtering the snapshot by it. -/
theorem selRange_eq_filter (l : List Movie) (r : Movie → Bool) :
    (List.range l.length).filterMap
        (fun i => (l[i]?).bind (fun m => if r m then some m else none))
      = l.filter r := by
  induction l with
  | nil => rfl
  | cons a t ih =>
    rw [List.length_cons, List.range_succ_eq_map, List.filterMap_cons, filterMap_shift]
    have h0 : ((a :: t)[0]?).bind (fun m => if r m then some m else none)
        = if r a then some a else none := by simp
    rw [h0, ih, List.filter_cons]
    cases hr : r a <;> simp [hr]

/-- Selecting the positions whose movie passes `p` and then applying a
residual predicate `r` filters the snapshot by the conjunction. -/
theorem selRange_hitAt_eq (l : List Movie) (p r : Movie → Bool) :
    ((List.range l.length).filter (hitAt l p)).filterMap
        (fun i => (l[i]?).bind (fun m => if r m then some m else none))
      = l.filter (fun m => p m && r m) := by
  induction l with
  | nil => rfl
  | cons a t ih =>
    rw [List.length_cons, List.range_succ_eq_map, List.filter_cons, List.filter_map]
    have hqc : (hitAt (a :: t) p) ∘ Nat.succ = hitAt t p := by
      funext i
      show (match (a :: t)[Nat.succ i]? with | some m => p m | none => false) = hitAt t p i
      rw [show (a :: t)[Nat.succ i]? = t[i]? from by simp]
      rfl
    have hq0 : hitAt (a :: t) p 0 = p a := by
      show (match (a :: t)[0]? with | some m => p m | none => false) = p a
      rw [show (a :: t)[0]? = some a from by simp]
    rw [hqc, hq0, List.filter_cons]
    cases hp : p a
    · rw [if_neg (by simp [hp]), filterMap_shift, ih]
      simp [hp]
    · rw [if_pos (by simp [hp]), List.filterMap_cons, filterMap_shift, ih]
      have h0 : ((a :: t)[0]?).bind (fun m => if r m then some m else none)
          = if r a then some a else none := by simp
      rw [h0]
      cases hr : r a <;> simp [hp, hr]

/-- Each stage of the naive filter returns a sublist of its input. -/
theorem stTitle_sub (c : SearchCriteria) (l : List Movie) :
    List.Sublist (stTitle c l) l := by
  unfold stTitle
  split
  · exact List.filter_sublist l
  · exact List.Sublist.refl l

/-- Genre stage shrinks. -/
theorem stGenre_sub (c : SearchCriteria) (l : List Movie) :
    List.Sublist (stGenre c l) l := by
  unfold stGenre
  split
  · exact List.filter_sublist l
  · exact List.Sublist.refl l

/-- Year stage shrinks. -/
theorem stYear_sub (c : SearchCriteria) (l : List Movie) :
    List.Sublist (stYear c l) l := by
  unfold stYear
  split
  · exact List.filter_sublist l
  · exact List.Sublist.refl l

/-- Country stage shrinks. -/
theorem stCountry_sub (c : SearchCriteria) (l : List Movie) :
    List.Sublist (stCountry c l) l := by
  unfold stCountry
  split
  · exact List.filter_sublist l
  · exact List.Sublist.refl l

/-- Language stage shrinks. -/
theorem stLang_sub (c : SearchCriteria) (l : List Movie) :
    List.Sublist (stLang c l) l := by
  unfold stLang
  split
  · exact List.filter_sublist l
  · exact List.Sublist.refl l

/-- Minimum-rating stage shrinks. -/
theorem stMin_sub (c : SearchCriteria) (l : List Movie) :
    List.Sublist (stMin c l) l := by
  unfold stMin
  split
  · exact List.filter_sublist l
  · exact List.Sublist.refl l

/-- Maximum-rating stage shrinks. -/
theorem stMax_sub (c : SearchCriteria) (l : List Movie) :
    List.Sublist (stMax c l) l := by
  unfold stMax
  split
  · exact List.filter_sublist l
  · exact List.Sublist.refl l

/-- When some filter is active, `optFilter` is the genre-early-return
check followed by the result loop over the accumulated candidates. -/
theorem optFilter_eq (movies : List Movie) (c : SearchCriteria)
    (hall : c.hasAnyFiltersB = true) :
    optFilter movies c
      = if c.hasGenreFilterB && (genrePostings movies (c.genre.getD "")).isEmpty then []
        else selectPred movies c (candListOf movies c) := by
  unfold optFilter candListOf
  rw [if_neg (by simp [hall])]

/-- The accumulated candidate list is always a filtered `range`. -/
theorem candListOf_is_filter (movies : List Movie) (c : SearchCriteria) :
    ∃ q, candListOf movies c = (List.range movies.length).filter q := by
  simp only [candListOf]
  by_cases ht : c.hasTitleSearchB
  · by_cases he : (titleFoldCands movies (wordsS c.normTitle)).isEmpty
    · rw [if_pos ht, if_pos he]
      by_cases hg : c.hasGenreFilterB
      · rw [if_pos hg]
        exact ⟨_, rfl⟩
      · rw [if_neg hg]
        exact ⟨fun _ => true, by simp⟩
    · rw [if_pos ht, if_neg he]
      by_cases hg : c.hasGenreFilterB
      · rw [if_pos hg, List.filter_filter]
        exact ⟨_, rfl⟩
      · rw [if_neg hg]
        exact ⟨_, rfl⟩
  · rw [if_neg ht]
    by_cases hg : c.hasGenreFilterB
    · rw [if_pos hg]
      exact ⟨_, rfl⟩
    · rw [if_neg hg]
      exact ⟨fun _ => true, by simp⟩

/-- Claim C7 counterexample: on the nine-movie snapshot `movies9` with
the genre-only query `"g8"`, the intersected candidate set `{2, 8}` is
rebuilt into a fresh 8-slot table and iterated in home-slot order, so
the program returns row 8 before row 2 — not snapshot order (the result
is not a sublist of the snapshot), though it is a permutation of the
snapshot-order selection. -/
theorem C7_counterexample :
    optFilterGenre8 movies9 "g8" = [mv "8" "t8" ["g8"] 3, mv "2" "t2" ["g8"] 3]
    ∧ ¬ List.Sublist (optFilterGenre8 movies9 "g8") movies9
    ∧ (optFilterGenre8 movies9 "g8").Perm (optFilter movies9 cG8) := by
  refine ⟨by decide, by decide, by decide⟩

/-- Claim C7 (amended): the naive filter always returns movies in
insertion/snapshot order of the underlying collection; the index-based
filter does so when the criteria carry no title and no genre filter —
then the candidate set is the untouched `set(range(n))`, iterated
ascending.  When an indexed filter intersects the candidate set, the
rebuilt set iterates in hash-table order, so the result, though it
contains exactly the selected movies, need not be in snapshot order
(see `C7_counterexample`). -/
theorem C7_snapshot_order (movies : List Movie) (c : SearchCriteria) :
    List.Sublist (naiveFilter movies c) movies
    ∧ (c.title = none → c.genre = none →
        List.Sublist (optFilter movies c) movies) := by
  constructor
  · exact (stMax_sub c _).trans ((stMin_sub c _).trans ((stLang_sub c _).trans
      ((stCountry_sub c _).trans ((stYear_sub c _).trans ((stGenre_sub c _).trans
      (stTitle_sub c movies))))))
  · intro ht hg
    have hts : c.hasTitleSearchB = false := by
      simp [SearchCriteria.hasTitleSearchB, ht]
    have hgs : c.hasGenreFilterB = false := by
      simp [SearchCriteria.hasGenreFilterB, hg]
    by_cases hall : c.hasAnyFiltersB
    · rw [optFilter_eq movies c hall, if_neg (by simp [hgs])]
      have hcand : candListOf movies c = List.range movies.length := by
        simp [candListOf, hts, hgs]
      rw [hcand]
      unfold selectPred
      rw [selRange_eq_filter]
      exact List.filter_sublist movies
    · have hf : c.hasAnyFiltersB = false := by
        revert hall
        cases c.hasAnyFiltersB <;> simp
      unfold optFilter
      rw [if_pos (by rw [hf]; rfl)]

/-- Closed instance of `C7_snapshot_order` at a year-only criteria. -/
theorem C7_snapshot_order_witness :
    List.Sublist (naiveFilter [mvAbCd, mvBase] cYear) [mvAbCd, mvBase]
    ∧ List.Sublist (optFilter [mvAbCd, mvBase] cYear) [mvAbCd, mvBase] :=
  ⟨(C7_snapshot_order [mvAbCd, mvBase] cYear).1,
   (C7_snapshot_order [mvAbCd, mvBase] cYear).2 rfl rfl⟩

/-- A title search forces `has_any_filters`. -/
theorem hasAny_of_title (c : SearchCriteria) (h : c.hasTitleSearchB = true) :
    c.hasAnyFiltersB = true := by
  cases hct : c.title
  · simp [SearchCriteria.hasTitleSearchB, hct] at h
  · simp [SearchCriteria.hasAnyFiltersB, SearchCriteria.isEmptyB, hct]

/-- The title-candidate fold stays empty when every query word is
absent from the title index. -/
theorem titleFold_nil (movies : List Movie) (ws : List (List Char))
    (h : ∀ w ∈ ws, titlePostings movies w = []) :
    titleFoldCands movies ws = [] := by
  induction ws with
  | nil => rfl
  | cons w rest ih =>
    unfold titleFoldCands at ih ⊢
    rw [List.foldl_cons]
    have hw : titlePostings movies w = [] := h w (by simp)
    simp only [hw, List.isEmpty_nil, if_true]
    exact ih (fun x hx => h x (by simp [hx]))

/-- Filtering `range` by membership in an already-filtered `range`
recovers the filtered `range`. -/
theorem filter_contains_self (n : Nat) (h : Nat → Bool) :
    (List.range n).filter (fun i => ((List.range n).filter h).contains i)
      = (List.range n).filter h := by
  refine List.filter_congr (fun i hi => ?_)
  by_cases hh : h i
  · have hmem : i ∈ (List.range n).filter h := List.mem_filter.mpr ⟨hi, hh⟩
    simp [List.elem_iff, hmem, hh]
  · have hnm : i ∉ (List.range n).filter h := by
      intro hc
      exact hh (List.mem_filter.mp hc).2
    simp only [List.contains]
    rw [Bool.eq_iff_iff, List.elem_iff]
    simp [hnm, hh]

/-- Claim C3 (amended): the optimized title phase folds only over the
query words that are present in the title index — an absent word is
skipped with no short-circuit — and the accumulated candidate set
restricts the result only when non-empty.  Consequently (a) a title
filter all of whose words are absent from the index imposes no
restriction at all (the candidate set is never intersected, so the
whole snapshot is returned as-is), and (b) a title filter consisting of
one indexed word selects exactly the movies whose lower-cased title
words contain it — as a permutation of the snapshot-order selection, the
iteration order of the rebuilt candidate set being hash-table order
rather than snapshot order. -/
theorem C3_title_candidates :
    (∀ (movies : List Movie) (c : SearchCriteria),
        c.hasTitleSearchB = true → c.genre = none → c.year = none →
        c.min_rating = none → c.max_rating = none →
        (∀ w ∈ wordsS c.normTitle, titlePostings movies w = []) →
        optFilter movies c = movies)
    ∧ (∀ (movies : List Movie) (c : SearchCriteria) (w : List Char),
        c.hasTitleSearchB = true → c.genre = none → c.year = none →
        c.min_rating = none → c.max_rating = none →
        wordsS c.normTitle = [w] → titlePostings movies w ≠ [] →
        (optFilter movies c).Perm (movies.filter
          (fun m => (wordsS (lowerS m.title)).contains w))) := by
  constructor
  · intro movies c ht hg hy hmin hmax habsent
    have hgs : c.hasGenreFilterB = false := by
      simp [SearchCriteria.hasGenreFilterB, hg]
    rw [optFilter_eq movies c (hasAny_of_title c ht), if_neg (by simp [hgs])]
    have hfold : titleFoldCands movies (wordsS c.normTitle) = [] :=
      titleFold_nil movies _ habsent
    have hcand : candListOf movies c = List.range movies.length := by
      simp [candListOf, ht, hgs, hfold]
    rw [hcand]
    have hsel : selectPred movies c (List.range movies.length)
        = movies.filter (predRest c) := by
      unfold selectPred
      exact selRange_eq_filter movies (predRest c)
    rw [hsel]
    have hpr : ∀ m, predRest c m = true := by
      intro m
      simp [predRest, hy, hmin, hmax]
    simp [hpr]
  · intro movies c w ht hg hy hmin hmax hws hne
    have hgs : c.hasGenreFilterB = false := by
      simp [SearchCriteria.hasGenreFilterB, hg]
    have heq : optFilter movies c
        = movies.filter (fun m => (wordsS (lowerS m.title)).contains w) := by
      rw [optFilter_eq movies c (hasAny_of_title c ht), if_neg (by simp [hgs])]
      have hpe : (titlePostings movies w).isEmpty = false := by
        cases hp : (titlePostings movies w).isEmpty
        · rfl
        · exact absurd (List.isEmpty_iff.mp hp) hne
      have hfold : titleFoldCands movies (wordsS c.normTitle) = titlePostings movies w := by
        rw [hws]
        unfold titleFoldCands
        rw [List.foldl_cons, List.foldl_nil]
        simp [hpe]
      have hcand : candListOf movies c
          = (List.range movies.length).filter (wordHit movies w) := by
        simp only [candListOf, ht, if_true, hfold, hpe, hgs, Bool.false_eq_true, if_false]
        rw [show titlePostings movies w = (List.range movies.length).filter (wordHit movies w)
          from rfl] at hpe ⊢
        exact filter_contains_self movies.length (wordHit movies w)
      rw [hcand]
      have hpr : ∀ m, predRest c m = true := by
        intro m
        simp [predRest, hy, hmin, hmax]
      have := selRange_hitAt_eq movies
        (fun m => (wordsS (lowerS m.title)).contains w) (predRest c)
      unfold selectPred
      rw [show wordHit movies w
          = hitAt movies (fun m => (wordsS (lowerS m.title)).contains w) from rfl]
      rw [this]
      refine List.filter_congr (fun m _ => ?_)
      simp [hpr]
    rw [heq]

/-- Claim C3 counterexample: with the single-movie snapshot `[mvAbCd]`
and the title query `"zz"` — a word entirely absent from the title
index — the optimized filter returns the whole snapshot, not the empty
list the claim requires. -/
theorem C3_counterexample : optFilter [mvAbCd] cMissing = [mvAbCd] := by decide

/-- Closed instance of `C3_title_candidates`: both parts applied to the
one-movie snapshot. -/
theorem C3_title_candidates_witness :
    optFilter [mvAbCd] cMissing = [mvAbCd]
    ∧ (optFilter [mvAbCd] { cNone with title := some "ab" }).Perm
        ([mvAbCd].filter (fun m => (wordsS (lowerS m.title)).contains "ab".toList)) :=
  ⟨C3_title_candidates.1 [mvAbCd] cMissing (by decide) rfl rfl rfl rfl (by decide),
   C3_title_candidates.2 [mvAbCd] { cNone with title := some "ab" } "ab".toList
     (by decide) rfl rfl rfl rfl (by decide) (by decide)⟩

/-- Claim C10 counterexample: on the single-movie snapshot `[mvAbCd]`
(title `"ab cd"`) with title query `"cd ab"`, the naive substring filter
matches nothing while the word-index filter matches the movie — the two
search implementations are not equivalent. -/
theorem C10_counterexample :
    naiveFilter [mvAbCd] cSwap ≠ optFilter [mvAbCd] cSwap := by decide

/-- Claim C10 (amended): the naive linear filter and the index-based
filter agree on every snapshot whenever the criteria carry no title, no
genre, no country, and no language filter (year, rating-range and
status filters behave identically); they diverge on title matching
(substring of the whole title versus word-index intersection) and the
naive-only country/language filters, and the genre filter additionally
differs in case sensitivity. -/
theorem C10_filters_agree (movies : List Movie) (c : SearchCriteria)
    (ht : c.title = none) (hg : c.genre = none) (hco : c.country = none)
    (hla : c.language = none) :
    naiveFilter movies c = optFilter movies c := by
  have hts : c.hasTitleSearchB = false := by
    simp [SearchCriteria.hasTitleSearchB, ht]
  have hgs : c.hasGenreFilterB = false := by
    simp [SearchCriteria.hasGenreFilterB, hg]
  have hnaive : naiveFilter movies c = stMax c (stMin c (stYear c movies)) := by
    unfold naiveFilter stTitle stGenre stCountry stLang
    rw [if_neg (by simp [hts, hgs]), if_neg (by simp [hts, hgs])]
    rw [hco, hla]
  by_cases hall : c.hasAnyFiltersB
  · rw [optFilter_eq movies c hall, if_neg (by simp [hgs])]
    have hcand : candListOf movies c = List.range movies.length := by
      simp [candListOf, hts, hgs]
    rw [hcand]
    have hsel : selectPred movies c (List.range movies.length)
        = movies.filter (fun m => predRest c m) := by
      unfold selectPred
      exact selRange_eq_filter movies (fun m => predRest c m)
    rw [hsel, hnaive]
    cases hy : c.year <;> cases hmin : c.min_rating <;> cases hmax : c.max_rating <;>
      simp [stYear, stMin, stMax, predRest, hy, hmin, hmax, List.filter_filter,
        Bool.and_comm, Bool.and_assoc, Bool.and_left_comm]
  · have hie : c.isEmptyB = true := by
      revert hall
      unfold SearchCriteria.hasAnyFiltersB
      cases c.isEmptyB <;> simp
    have hfields := hie
    simp only [SearchCriteria.isEmptyB, Bool.and_eq_true, Option.isNone_iff_eq_none]
      at hfields
    obtain ⟨⟨⟨⟨⟨⟨⟨-, -⟩, hy⟩, hmin⟩, hmax⟩, -⟩, -⟩, -⟩ := hfields
    have hopt : optFilter movies c = movies := by
      unfold optFilter
      rw [if_pos (by simp [SearchCriteria.hasAnyFiltersB, hie])]
    rw [hopt, hnaive]
    simp [stYear, stMin, stMax, hy, hmin, hmax]

/-- Closed instance of `C10_filters_agree` at a year-only criteria. -/
theorem C10_filters_agree_witness :
    naiveFilter [mvAbCd, mvBase] cYear = optFilter [mvAbCd, mvBase] cYear :=
  C10_filters_agree [mvAbCd, mvBase] cYear rfl rfl rfl rfl

/-- Claim C9 counterexample: for `mvBase` (genres `g1, g2`) over the
snapshot `[mvTwoShared, mvOneShared]`, the optimized repository returns
`[mvTwoShared, mvOneShared]` with mean ratings `[3, 5]` — not sorted by
mean rating descending, because it sorts primarily by shared-genre
count. -/
theorem C9_counterexample :
    (relOpt [mvTwoShared, mvOneShared] mvBase 5).map (fun x => x.average_rating)
        = [3, 5]
    ∧ ¬ List.Sorted ratingGE (relOpt [mvTwoShared, mvOneShared] mvBase 5) := by
  constructor
  · decide
  · intro h
    rw [show relOpt [mvTwoShared, mvOneShared] mvBase 5 = [mvTwoShared, mvOneShared]
      from by decide] at h
    exact absurd (List.rel_of_sorted_cons h mvOneShared (by decide)) (by decide)

/-- Claim C9 (amended): both repositories return only movies sharing at
least one genre with `m`, exclude `m` itself (by identifier), and cap
the result at `limit`; the basic repository's result is sorted by mean
rating descending, while the optimized repository's result is sorted by
the pair (shared-genre count, mean rating) lexicographically
descending. -/
theorem C9_related (movies : List Movie) (m : Movie) (limit : Nat) :
    (∀ x ∈ relNaive movies m limit, sharesGenreB m x = true ∧ x.movieId ≠ m.movieId)
    ∧ (relNaive movies m limit).length ≤ limit
    ∧ List.Sorted ratingGE (relNaive movies m limit)
    ∧ (∀ x ∈ relOpt movies m limit, sharesGenreB m x = true ∧ x.movieId ≠ m.movieId)
    ∧ (relOpt movies m limit).length ≤ limit
    ∧ List.Sorted (relKeyGE m) (relOpt movies m limit) := by
  have hmemN : ∀ x ∈ relNaive movies m limit,
      sharesGenreB m x = true ∧ x.movieId ≠ m.movieId := by
    intro x hx
    have hx1 : x ∈ (movies.filter
        (fun y => y.movieId != m.movieId && sharesGenreB m y)).insertionSort ratingGE :=
      List.take_subset limit _ hx
    have hx2 : x ∈ movies.filter (fun y => y.movieId != m.movieId && sharesGenreB m y) :=
      (List.perm_insertionSort ratingGE _).mem_iff.mp hx1
    have hcond := (List.mem_filter.mp hx2).2
    rw [Bool.and_eq_true] at hcond
    exact ⟨hcond.2, bne_iff_ne.mp hcond.1⟩
  have hsortN : List.Sorted ratingGE (relNaive movies m limit) :=
    (List.sorted_insertionSort ratingGE _).sublist (List.take_sublist limit _)
  -- the optimized pipeline
  have hpairmem : ∀ p ∈ (((movies.filter
        (fun y => y.movieId != m.movieId && sharesGenreB m y)).map
          (fun x => (x, commonCount m x))).insertionSort pairGE).take limit,
      p.1 ∈ movies.filter (fun y => y.movieId != m.movieId && sharesGenreB m y)
        ∧ p.2 = commonCount m p.1 := by
    intro p hp
    have hp1 := List.take_subset limit _ hp
    have hp2 := (List.perm_insertionSort pairGE _).mem_iff.mp hp1
    obtain ⟨x, hxmem, hxeq⟩ := List.mem_map.mp hp2
    refine ⟨?_, ?_⟩ <;> rw [← hxeq] <;> simpa using hxmem
  have hmemO : ∀ x ∈ relOpt movies m limit,
      sharesGenreB m x = true ∧ x.movieId ≠ m.movieId := by
    intro x hx
    obtain ⟨p, hpmem, hpeq⟩ := List.mem_map.mp hx
    have := (hpairmem p hpmem).1
    have hcond := (List.mem_filter.mp this).2
    rw [Bool.and_eq_true] at hcond
    rw [← hpeq]
    exact ⟨hcond.2, bne_iff_ne.mp hcond.1⟩
  have hsortO : List.Sorted (relKeyGE m) (relOpt movies m limit) := by
    have hs : List.Sorted pairGE ((((movies.filter
        (fun y => y.movieId != m.movieId && sharesGenreB m y)).map
          (fun x => (x, commonCount m x))).insertionSort pairGE).take limit) :=
      (List.sorted_insertionSort pairGE _).sublist (List.take_sublist limit _)
    unfold relOpt
    rw [List.Sorted, List.pairwise_map]
    refine hs.imp_of_mem ?_
    intro p q hpm hqm hpq
    have hp2 := (hpairmem p hpm).2
    have hq2 := (hpairmem q hqm).2
    unfold relKeyGE
    rw [← hp2, ← hq2]
    exact hpq
  refine ⟨hmemN, ?_, hsortN, hmemO, ?_, hsortO⟩
  · exact List.length_take_le limit _
  · unfold relOpt
    rw [List.length_map]
    exact List.length_take_le limit _

/-- Closed instance of `C9_related` over the two-movie fixture. -/
theorem C9_related_witness :
    (∀ x ∈ relNaive [mvTwoShared, mvOneShared] mvBase 1,
        sharesGenreB mvBase x = true ∧ x.movieId ≠ mvBase.movieId)
    ∧ (relNaive [mvTwoShared, mvOneShared] mvBase 1).length ≤ 1
    ∧ List.Sorted (relKeyGE mvBase) (relOpt [mvTwoShared, mvOneShared] mvBase 1) :=
  ⟨(C9_related [mvTwoShared, mvOneShared] mvBase 1).1,
   (C9_related [mvTwoShared, mvOneShared] mvBase 1).2.1,
   (C9_related [mvTwoShared, mvOneShared] mvBase 1).2.2.2.2.2⟩

/-- Claim C1 counterexample: in the remote-active state with no local
cache, a `delete` whose remote call raises leaves the manager still
remote-active with no local cache built, and the very next `get` happily
uses the remote tier again — the permanent-failover rule does not hold
for `delete` (nor for `exists`/`clear_pattern`). -/
theorem C1_counterexample :
    (cmDelete cmRemote "k" RResp.exn).2.use_redis = true
    ∧ (cmDelete cmRemote "k" RResp.exn).2.memory = none
    ∧ (cmGet (cmDelete cmRemote "k" RResp.exn).2 0 "k" (RResp.ok (some 7))).1 = some 7 := by
  decide

/-- Claim C1 (amended): while remote-active, only `get` and `set` react
to a remote exception by permanently switching to the local tier
(lazily building the local `MemoryCache`) and retrying the same
operation locally; `delete`, `exists` and `clear_pattern` swallow the
remote error without changing the tier state and fall through to the
local cache only if it already exists.  Once the remote flag is
dropped, no operation ever sets it again. -/
theorem C1_failover {α : Type} (s : CMState α) (now : Int) (k : String) (v : α)
    (t? : Option Int) (pat : String) (hra : remoteActive s) :
    ((cmGet s now k RResp.exn).2.use_redis = false
      ∧ ((cmGet s now k RResp.exn).2.memory).isSome = true
      ∧ (cmGet s now k RResp.exn).1
          = (memGet (s.memory.getD (mkCache α 1000 3600 now)) now k).1)
    ∧ ((cmSet s now k v t? RResp.exn).2.use_redis = false
      ∧ ((cmSet s now k v t? RResp.exn).2.memory).isSome = true
      ∧ (cmSet s now k v t? RResp.exn).1
          = (memSet (s.memory.getD (mkCache α 1000 3600 now)) now k v t?).1)
    ∧ ((cmDelete s k RResp.exn).2.use_redis = s.use_redis
      ∧ ((cmDelete s k RResp.exn).2.memory).isSome = (s.memory).isSome)
    ∧ ((cmExists s now k RResp.exn).2.use_redis = s.use_redis
      ∧ ((cmExists s now k RResp.exn).2.memory).isSome = (s.memory).isSome)
    ∧ ((cmClearPattern s pat RResp.exn).2.use_redis = s.use_redis
      ∧ ((cmClearPattern s pat RResp.exn).2.memory).isSome = (s.memory).isSome)
    ∧ (∀ (s' : CMState α) (r : RResp (Option α)), s'.use_redis = false →
        (cmGet s' now k r).2.use_redis = false)
    ∧ (∀ (s' : CMState α) (r : RResp Bool), s'.use_redis = false →
        (cmSet s' now k v t? r).2.use_redis = false)
    ∧ (∀ (s' : CMState α) (r : RResp Bool), s'.use_redis = false →
        (cmDelete s' k r).2.use_redis = false)
    ∧ (∀ (s' : CMState α) (r : RResp Bool), s'.use_redis = false →
        (cmExists s' now k r).2.use_redis = false)
    ∧ (∀ (s' : CMState α) (r : RResp Nat), s'.use_redis = false →
        (cmClearPattern s' pat r).2.use_redis = false) := by
  obtain ⟨h1, h2⟩ := hra
  refine ⟨?_, ?_, ?_, ?_, ?_, ?_, ?_, ?_, ?_, ?_⟩
  · cases hm : s.memory <;>
      simp [cmGet, cmFailover, memTailGet, h1, h2, hm]
  · cases hm : s.memory <;>
      simp [cmSet, cmFailover, h1, h2, hm]
  · cases hm : s.memory <;> simp [cmDelete, h1, h2, hm]
  · cases hm : s.memory <;> simp [cmExists, h1, h2, hm]
  · cases hm : s.memory <;> simp [cmClearPattern, h1, h2, hm]
  · intro s' r h
    cases hm : s'.memory <;> simp [cmGet, memTailGet, h, hm]
  · intro s' r h
    cases hm : s'.memory <;> simp [cmSet, h, hm]
  · intro s' r h
    cases hm : s'.memory <;> simp [cmDelete, h, hm]
  · intro s' r h
    cases hm : s'.memory <;> cases r <;> simp [cmExists, h, hm]
  · intro s' r h
    cases hm : s'.memory <;> simp [cmClearPattern, h, hm]

/-- Closed instance of `C1_failover` at the remote-active fixture. -/
theorem C1_failover_witness :
    (cmGet cmRemote 0 "k" RResp.exn).2.use_redis = false
    ∧ ((cmGet cmRemote 0 "k" RResp.exn).2.memory).isSome = true
    ∧ (cmDelete cmRemote "k" RResp.exn).2.use_redis = cmRemote.use_redis :=
  ⟨(C1_failover cmRemote 0 "k" 7 none "p" ⟨rfl, rfl⟩).1.1,
   (C1_failover cmRemote 0 "k" 7 none "p" ⟨rfl, rfl⟩).1.2.1,
   (C1_failover cmRemote 0 "k" 7 none "p" ⟨rfl, rfl⟩).2.2.1.1⟩

/-! ### Fresh-cache set-then-get behaviour -/

/-- A `set` on a fresh cache with capacity at least 2 stores exactly one
entry with expiry `now + pyTtl ttl default_ttl` and triggers no
eviction. -/
theorem memSet_fresh (α : Type) (max : Nat) (dttl t0 tset : Int) (k : String)
    (v : α) (t? : Option Int) (hmax : 2 ≤ max) :
    (memSet (mkCache α max dttl t0) tset k v t?).2
      = ⟨[(k, v, tset + pyTtl t? dttl)], max, dttl, t0, 300⟩ := by
  unfold memSet mkCache dictSet dictKeys evictIfNeeded
  simp [show ¬(max ≤ 1) from by omega]

/-- A `get` against a one-entry cache returns the value exactly when the
current time is strictly below the entry's expiry, whether or not the
cleanup sweep runs first. -/
theorem memGet_single (α : Type) (max : Nat) (dttl t0 tget ex : Int) (k : String)
    (v : α) :
    (memGet (⟨[(k, v, ex)], max, dttl, t0, 300⟩ : MemCache α) tget k).1
      = if tget < ex then some v else none := by
  unfold memGet cleanupExpired dictDel
  by_cases hcl : tget - t0 < 300
  · rw [if_pos hcl]
    by_cases hlt : tget < ex <;> simp [List.find?, hlt]
  · rw [if_neg hcl]
    by_cases hex : ex < tget
    · simp [List.find?, hex, show ¬(tget < ex) from by omega]
    · by_cases hlt : tget < ex <;> simp [List.find?, hex, hlt]

/-- Set-then-get on a fresh cache: the value is visible exactly while
the time is strictly below `set`-time plus the effective TTL. -/
theorem memGet_memSet_fresh (α : Type) (max : Nat) (dttl t0 tset tget : Int)
    (k : String) (v : α) (t? : Option Int) (hmax : 2 ≤ max) :
    (memGet (memSet (mkCache α max dttl t0) tset k v t?).2 tget k).1
      = if tget < tset + pyTtl t? dttl then some v else none := by
  rw [memSet_fresh α max dttl t0 tset k v t? hmax,
    memGet_single α max dttl t0 tget (tset + pyTtl t? dttl) k v]

/-- Claim C2 counterexample: a key set with `ttl = 0` is still present
on the very next `get`, because `ttl = ttl or self._default_ttl` treats
`0` as falsy and substitutes the default TTL of 3600 s. -/
theorem C2_counterexample :
    (memGet (memSet (mkCache Nat 1000 3600 0) 0 "k" 7 (some 0)).2 0 "k").1
      = some 7 := by decide

/-- Claim C2 (amended): in a fresh `MemoryCache`, a key set at `tset`
with any TTL argument is returned by `get` at `tget` exactly when
`tget < tset + pyTtl ttl default_ttl`; since `ttl = 0` falls back to the
default TTL (3600 s by default) such a key is present on the very next
`get`, while `ttl = 100` makes the key present immediately and absent
once the time reaches its expiry; `get` treats an entry whose expiry has
passed as absent. -/
theorem C2_ttl_expiry (α : Type) (max : Nat) (dttl t0 tset tget : Int)
    (k : String) (v : α) (t? : Option Int) (hmax : 2 ≤ max) :
    ((memGet (memSet (mkCache α max dttl t0) tset k v t?).2 tget k).1 = some v
      ↔ tget < tset + pyTtl t? dttl)
    ∧ pyTtl (some 0) dttl = dttl
    ∧ pyTtl (some 100) dttl = 100 := by
  refine ⟨?_, rfl, rfl⟩
  rw [memGet_memSet_fresh α max dttl t0 tset tget k v t? hmax]
  by_cases h : tget < tset + pyTtl t? dttl <;> simp [h]

/-- Closed instance of `C2_ttl_expiry`: a key set with `ttl = 100` at
time 0 is absent at time 101. -/
theorem C2_ttl_expiry_witness :
    ((memGet (memSet (mkCache Nat 1000 3600 0) 0 "k" 7 (some 100)).2 101 "k").1
        = some 7
      ↔ (101 : Int) < 0 + pyTtl (some 100) 3600)
    ∧ pyTtl (some 0) 3600 = 3600
    ∧ pyTtl (some 100) 3600 = 100 :=
  C2_ttl_expiry Nat 1000 3600 0 0 101 "k" 7 (some 100) (by decide)

/-- Claim C8 counterexample: `set` with a negative TTL neither raises
nor rejects — it returns `True` and stores the entry (with expiry
already in the past). -/
theorem C8_counterexample :
    (memSet (mkCache Nat 1000 3600 0) 0 "k" 7 (some (-5))).1 = true
    ∧ ("k", 7, (-5 : Int)) ∈ (memSet (mkCache Nat 1000 3600 0) 0 "k" 7 (some (-5))).2.cache := by
  decide

/-- Claim C8 (amended): `MemoryCache` operations do not raise; `set`
called with a negative TTL does not fail fast — it succeeds (returns
`True`) and stores the entry with an already-past expiry `tset + t`, so
the key is absent on every `get` at or after the set time. -/
theorem C8_negative_ttl (α : Type) (max : Nat) (dttl t0 tset tget : Int)
    (k : String) (v : α) (t : Int) (ht : t < 0) (hmax : 2 ≤ max)
    (hge : tset ≤ tget) :
    (memSet (mkCache α max dttl t0) tset k v (some t)).1 = true
    ∧ (k, v, tset + t) ∈ (memSet (mkCache α max dttl t0) tset k v (some t)).2.cache
    ∧ (memGet (memSet (mkCache α max dttl t0) tset k v (some t)).2 tget k).1 = none := by
  have hpt : pyTtl (some t) dttl = t := by
    show (if t = 0 then dttl else t) = t
    rw [if_neg (by omega)]
  refine ⟨rfl, ?_, ?_⟩
  · rw [memSet_fresh α max dttl t0 tset k v (some t) hmax]
    simp [hpt]
  · rw [memGet_memSet_fresh α max dttl t0 tset tget k v (some t) hmax, hpt,
      if_neg (by omega)]

/-- Closed instance of `C8_negative_ttl` at `ttl = -5`. -/
theorem C8_negative_ttl_witness :
    (memSet (mkCache Nat 1000 3600 0) 0 "k" 7 (some (-5))).1 = true
    ∧ ("k", (7 : Nat), (0 : Int) + (-5))
        ∈ (memSet (mkCache Nat 1000 3600 0) 0 "k" 7 (some (-5))).2.cache
    ∧ (memGet (memSet (mkCache Nat 1000 3600 0) 0 "k" 7 (some (-5))).2 1 "k").1 = none :=
  C8_negative_ttl Nat 1000 3600 0 0 1 "k" 7 (-5) (by decide) (by decide) (by decide)

/-! ### Dictionary accounting for the eviction bound -/

/-- Deleting a key filters it out of the key list. -/
theorem dictKeys_dictDel (l : List (String × α × Int)) (k : String) :
    dictKeys (dictDel l k) = (dictKeys l).filter (fun x => x != k) := by
  unfold dictKeys dictDel
  rw [List.filter_map]
  rfl

/-- Removing one occurring element from a duplicate-free list of keys
drops the length by exactly one. -/
theorem length_filter_ne (xs : List String) (k : String) (hN : xs.Nodup)
    (hk : k ∈ xs) :
    (xs.filter (fun x => x != k)).length = xs.length - 1 := by
  induction xs with
  | nil => cases hk
  | cons a t ih =>
    rw [List.filter_cons]
    by_cases ha : a = k
    · subst ha
      rw [if_neg (by simp)]
      have hnot : a ∉ t := (List.nodup_cons.mp hN).1
      rw [List.filter_eq_self.mpr ?_]
      · simp
      · intro x hx
        simp only [bne_iff_ne, ne_eq]
        intro hxa
        exact hnot (hxa ▸ hx)
    · rw [if_pos (by simp [ha])]
      have hk2 : k ∈ t := by
        rcases List.mem_cons.mp hk with h | h
        · exact absurd h.symm ha
        · exact h
      have hlen : 1 ≤ t.length := List.length_pos.mpr (List.ne_nil_of_mem hk2)
      rw [List.length_cons, List.length_cons, ih (List.nodup_cons.mp hN).2 hk2]
      omega

/-- With duplicate-free keys, `del` of a present key removes exactly one
entry. -/
theorem length_dictDel (l : List (String × α × Int)) (k : String)
    (hN : (dictKeys l).Nodup) (hk : k ∈ dictKeys l) :
    (dictDel l k).length = l.length - 1 := by
  have h1 : (dictDel l k).length = (dictKeys (dictDel l k)).length := by
    unfold dictKeys
    rw [List.length_map]
  have h2 : (dictKeys l).length = l.length := by
    unfold dictKeys
    rw [List.length_map]
  rw [h1, dictKeys_dictDel, length_filter_ne (dictKeys l) k hN hk, h2]

/-- Deleting a duplicate-free batch of present keys removes exactly one
entry per key. -/
theorem removeKeys_length (ks : List String) (l : List (String × α × Int))
    (hN : (dictKeys l).Nodup) (hks : ks.Nodup)
    (hsub : ∀ x ∈ ks, x ∈ dictKeys l) :
    (removeKeys l ks).length = l.length - ks.length := by
  induction ks generalizing l with
  | nil => simp [removeKeys]
  | cons k rest ih =>
    have hstep : removeKeys l (k :: rest) = removeKeys (dictDel l k) rest := by
      unfold removeKeys
      rw [List.foldl_cons]
    rw [hstep]
    have hNd : (dictKeys (dictDel l k)).Nodup := by
      rw [dictKeys_dictDel]
      exact hN.filter _
    have hkin : k ∈ dictKeys l := hsub k (by simp)
    have hsub2 : ∀ x ∈ rest, x ∈ dictKeys (dictDel l k) := by
      intro x hx
      rw [dictKeys_dictDel, List.mem_filter]
      refine ⟨hsub x (by simp [hx]), ?_⟩
      have hne : x ≠ k := by
        intro he
        exact (List.nodup_cons.mp hks).1 (he ▸ hx)
      simp [hne]
    rw [ih (dictDel l k) hNd (List.nodup_cons.mp hks).2 hsub2,
      length_dictDel l k hN hkin]
    have hpos : 1 ≤ l.length := by
      cases l with
      | nil => simp [dictKeys] at hkin
      | cons e t => simp
    simp only [List.length_cons]
    omega

/-- Deleting keys only ever shrinks the key list (as a sublist). -/
theorem removeKeys_keys_sublist (ks : List String) (l : List (String × α × Int)) :
    List.Sublist (dictKeys (removeKeys l ks)) (dictKeys l) := by
  induction ks generalizing l with
  | nil => exact List.Sublist.refl _
  | cons k rest ih =>
    have hstep : removeKeys l (k :: rest) = removeKeys (dictDel l k) rest := by
      unfold removeKeys
      rw [List.foldl_cons]
    rw [hstep]
    refine (ih (dictDel l k)).trans ?_
    rw [dictKeys_dictDel]
    exact List.filter_sublist _

/-- Python dict assignment keeps keys duplicate-free and grows the entry
count by at most one (and the dict is non-empty afterwards). -/
theorem dictSet_nodup_length (l : List (String × α × Int)) (k : String) (v : α)
    (ex : Int) (hN : (dictKeys l).Nodup) :
    (dictKeys (dictSet l k v ex)).Nodup
    ∧ (dictSet l k v ex).length ≤ l.length + 1
    ∧ 1 ≤ (dictSet l k v ex).length := by
  unfold dictSet
  by_cases hc : (dictKeys l).contains k
  · rw [if_pos hc]
    have hkeys : dictKeys (l.map fun e => if e.1 = k then (k, v, ex) else e)
        = dictKeys l := by
      unfold dictKeys
      rw [List.map_map]
      have hfun : ((fun e : String × α × Int => e.1) ∘
          (fun e : String × α × Int => if e.1 = k then (k, v, ex) else e))
          = fun e : String × α × Int => e.1 := by
        funext e
        by_cases he : e.1 = k <;> simp [Function.comp, he]
      rw [hfun]
    have hmem : k ∈ dictKeys l := List.elem_iff.mp hc
    have hpos : 1 ≤ l.length := by
      cases l with
      | nil => simp [dictKeys] at hmem
      | cons e t => simp
    refine ⟨hkeys ▸ hN, ?_, ?_⟩
    · rw [List.length_map]
      omega
    · rw [List.length_map]
      exact hpos
  · rw [if_neg hc]
    have hkn : k ∉ dictKeys l := fun hm => hc (List.elem_iff.mpr hm)
    have happ : dictKeys (l ++ [(k, v, ex)]) = dictKeys l ++ [k] := by
      unfold dictKeys
      rw [List.map_append]
      rfl
    refine ⟨?_, by simp, by simp⟩
    rw [happ, List.nodup_append]
    exact ⟨hN, List.nodup_singleton k, fun a ha hb => hkn ((List.mem_singleton.mp hb) ▸ ha)⟩

/-- Model-level count of the eviction pass: when the capacity bound is
reached, exactly `max 1 (count / 10)` entries — the oldest-expiring ones
— are removed. -/
theorem evictIfNeeded_count (s : MemCache α) (hN : (dictKeys s.cache).Nodup)
    (htr : s.max_size ≤ s.cache.length) :
    (evictIfNeeded s).cache.length
      = s.cache.length - max 1 (s.cache.length / 10) := by
  simp only [evictIfNeeded]
  rw [if_pos htr]
  have hperm : (s.cache.insertionSort expiryLE).Perm s.cache :=
    s.cache.perm_insertionSort expiryLE
  have hlen : (s.cache.insertionSort expiryLE).length = s.cache.length :=
    hperm.length_eq
  have hsubl : List.Sublist
      (((s.cache.insertionSort expiryLE).take
        (max 1 ((s.cache.insertionSort expiryLE).length / 10))).map (fun e => e.1))
      (dictKeys (s.cache.insertionSort expiryLE)) :=
    (List.take_sublist _ _).map _
  have hksN : (((s.cache.insertionSort expiryLE).take
      (max 1 ((s.cache.insertionSort expiryLE).length / 10))).map (fun e => e.1)).Nodup := by
    have hN2 : (s.cache.map (fun e => e.1)).Nodup := hN
    have h1 : ((s.cache.insertionSort expiryLE).map (fun e => e.1)).Nodup :=
      ((hperm.map (fun e => e.1)).nodup_iff).mpr hN2
    exact h1.sublist hsubl
  have hsub : ∀ x ∈ ((s.cache.insertionSort expiryLE).take
      (max 1 ((s.cache.insertionSort expiryLE).length / 10))).map (fun e => e.1),
      x ∈ dictKeys s.cache := by
    intro x hx
    exact ((hperm.map (fun e => e.1)).mem_iff).mp (hsubl.subset hx)
  rw [removeKeys_length _ _ hN hksN hsub, List.length_map, List.length_take]
  rcases Nat.eq_zero_or_pos s.cache.length with h0 | hpos
  · rw [hlen, h0]
    simp
  · have htle : max 1 ((s.cache.insertionSort expiryLE).length / 10)
        ≤ (s.cache.insertionSort expiryLE).length := by
      rw [hlen]
      have := Nat.div_le_self s.cache.length 10
      omega
    rw [Nat.min_eq_left htle, hlen]

/-- One `set` keeps keys duplicate-free, keeps the entry count within
`max_size`, and leaves `max_size` itself unchanged. -/
theorem memSet_bound (s : MemCache α) (now : Int) (k : String) (v : α)
    (t? : Option Int) (hN : (dictKeys s.cache).Nodup)
    (hlen : s.cache.length ≤ s.max_size) :
    (dictKeys (memSet s now k v t?).2.cache).Nodup
    ∧ (memSet s now k v t?).2.cache.length ≤ s.max_size
    ∧ (memSet s now k v t?).2.max_size = s.max_size := by
  obtain ⟨hN1, hle1, hge1⟩ :=
    dictSet_nodup_length s.cache k v (now + pyTtl t? s.default_ttl) hN
  have hstate : (memSet s now k v t?).2
      = evictIfNeeded { s with cache := dictSet s.cache k v (now + pyTtl t? s.default_ttl) } := by
    simp only [memSet]
  rw [hstate]
  by_cases htr : s.max_size ≤ (dictSet s.cache k v (now + pyTtl t? s.default_ttl)).length
  · have hcount : (evictIfNeeded
        { s with cache := dictSet s.cache k v (now + pyTtl t? s.default_ttl) }).cache.length
        = (dictSet s.cache k v (now + pyTtl t? s.default_ttl)).length
          - max 1 ((dictSet s.cache k v (now + pyTtl t? s.default_ttl)).length / 10) :=
      evictIfNeeded_count
        { s with cache := dictSet s.cache k v (now + pyTtl t? s.default_ttl) } hN1 htr
    have hsubl : List.Sublist
        (dictKeys (evictIfNeeded
          { s with cache := dictSet s.cache k v (now + pyTtl t? s.default_ttl) }).cache)
        (dictKeys (dictSet s.cache k v (now + pyTtl t? s.default_ttl))) := by
      simp only [evictIfNeeded]
      rw [if_pos htr]
      exact removeKeys_keys_sublist _ _
    refine ⟨hN1.sublist hsubl, ?_, ?_⟩
    · rw [hcount]
      have h1le : 1 ≤ max 1 ((dictSet s.cache k v (now + pyTtl t? s.default_ttl)).length / 10) :=
        Nat.le_max_left 1 _
      omega
    · simp only [evictIfNeeded]
      rw [if_pos htr]
  · have hne : evictIfNeeded
        { s with cache := dictSet s.cache k v (now + pyTtl t? s.default_ttl) }
        = { s with cache := dictSet s.cache k v (now + pyTtl t? s.default_ttl) } := by
      simp only [evictIfNeeded]
      rw [if_neg htr]
    rw [hne]
    refine ⟨hN1, ?_, rfl⟩
    show (dictSet s.cache k v (now + pyTtl t? s.default_ttl)).length ≤ s.max_size
    omega

/-- The behaviour claim C4 (and §4.1 of the spec) describe is the
code's evident intent: were the eviction pass to complete, every `set`
from a fresh cache with capacity `max_size` would leave at most
`max_size` entries, the triggered pass removing exactly
`max 1 (count / 10)` of them ranked by expiry ascending
(`evictIfNeeded_count`).  The pass never completes in the program —
see `C4_deadlock`. -/
theorem runSets_length_bound (α : Type) (max_size : Nat) (dttl t0 : Int)
    (ops : List (Int × String × α × Option Int)) :
    (runSets ops (mkCache α max_size dttl t0)).cache.length ≤ max_size := by
  have main : ∀ (rest : List (Int × String × α × Option Int)) (s : MemCache α),
      (dictKeys s.cache).Nodup → s.cache.length ≤ s.max_size →
      (runSets rest s).cache.length ≤ (runSets rest s).max_size
        ∧ (runSets rest s).max_size = s.max_size := by
    intro rest
    induction rest with
    | nil => exact fun s _ h2 => ⟨h2, rfl⟩
    | cons op tail ih =>
      intro s h1 h2
      have hstep : runSets (op :: tail) s
          = runSets tail (memSet s op.1 op.2.1 op.2.2.1 op.2.2.2).2 := by
        unfold runSets
        rw [List.foldl_cons]
      rw [hstep]
      obtain ⟨hN2, hle2, hmax2⟩ := memSet_bound s op.1 op.2.1 op.2.2.1 op.2.2.2 h1 h2
      have := ih (memSet s op.1 op.2.1 op.2.2.1 op.2.2.2).2 hN2 (by rw [hmax2]; exact hle2)
      exact ⟨this.1, by rw [this.2, hmax2]⟩
  have h := main ops (mkCache α max_size dttl t0) (by simp [mkCache, dictKeys])
    (by simp [mkCache])
  have hmk : (mkCache α max_size dttl t0).max_size = max_size := rfl
  rw [hmk] at h
  exact h.1.trans h.2.le

/-- Claim C4 (code bug): the claim states the intended behaviour, but
the program cannot exhibit it — `set` holds the non-reentrant
`threading.Lock` across its `_evict_if_needed()` call, and the pass
re-acquires that lock whenever the entry count has reached `max_size`,
so the triggering `set` deadlocks and never returns.  Whenever the
insert leaves the count at or above `max_size`, `set` hangs (`none`);
below the bound, `set` completes and agrees with the lock-free model
`memSet`. -/
theorem C4_deadlock (α : Type) (s : MemCache α) (now : Int) (k : String) (v : α)
    (t? : Option Int) :
    (s.max_size ≤ (dictSet s.cache k v (now + pyTtl t? s.default_ttl)).length →
      memSetL s now k v t? = none)
    ∧ ((dictSet s.cache k v (now + pyTtl t? s.default_ttl)).length < s.max_size →
      memSetL s now k v t? = some (memSet s now k v t?)) := by
  constructor
  · intro h
    simp [memSetL, evictAttemptLocked, h]
  · intro h
    have hno : ¬ (s.max_size ≤ (dictSet s.cache k v (now + pyTtl t? s.default_ttl)).length) := by
      omega
    simp [memSetL, evictAttemptLocked, memSet, evictIfNeeded, hno]

/-- Closed instance of `C4_deadlock`: the very first `set` into a fresh
capacity-1 cache never returns, while a `set` into a fresh capacity-3
cache completes and agrees with the lock-free model. -/
theorem C4_deadlock_witness :
    memSetL (mkCache Nat 1 3600 0) 0 "k" 7 none = none
    ∧ memSetL (mkCache Nat 3 3600 0) 0 "k" 7 none
        = some (memSet (mkCache Nat 3 3600 0) 0 "k" 7 none) :=
  ⟨(C4_deadlock Nat (mkCache Nat 1 3600 0) 0 "k" 7 none).1 (by decide),
   (C4_deadlock Nat (mkCache Nat 3 3600 0) 0 "k" 7 none).2 (by decide)⟩

end WSM
